import Mathlib

/-!
Shallow embedding of `src/HandTrackingModule.py` (class `HandDetector`).

Modelling conventions:
* Python floats are modelled as rationals (`ℚ`); Python `int(x)` truncation
  toward zero is `pyInt`.
* A numpy image is a list of rows of BGR pixels; `cv2.flip(img, 1)` reverses
  each row, `cv2.cvtColor(·, COLOR_BGR2RGB)` swaps the first and third channel.
* The external MediaPipe engine (`self.hands.process`) and the two drawing
  utilities (`mp_draw.draw_landmarks`, `cv2.circle`) are uninterpreted
  functions: the engine is a field of the adapter state, the drawing
  utilities are explicit function arguments.
* Python heterogeneous lists such as `[idx, px, py, z, hand_type]` are lists
  of a tagged value type `PyVal`.
* In-place mutation is modelled by explicit threading: every method returns
  the adapter state and the caller's image buffer next to its Python return
  value, so frame conditions are visible in the result.
* A Python exception (IndexError, ZeroDivisionError) is modelled as `none`
  in an `Option` result.
* `time.time()` is an input: `update_fps` takes the current wall-clock value
  as an explicit argument.
-/

/-- Python `int()` applied to a (rational-valued) float: truncation toward
zero. -/
def pyInt (q : ℚ) : ℤ :=
  if 0 ≤ q.num then q.num / (q.den : ℤ) else -((-q.num) / (q.den : ℤ))

/-- A Python value appearing in the heterogeneous landmark lists. -/
inductive PyVal where
  | int (n : ℤ)
  | rat (q : ℚ)
  | str (s : String)
deriving DecidableEq, Repr

/-- One BGR pixel of a numpy image. -/
structure Pixel where
  b : ℤ
  g : ℤ
  r : ℤ
deriving DecidableEq, Repr

/-- A numpy colour image: a list of rows of pixels (`img.shape = (h, w, 3)`). -/
structure Image where
  rows : List (List Pixel)
deriving DecidableEq, Repr

/-- `img.shape[0]`: number of rows. -/
def Image.height (img : Image) : ℕ := img.rows.length

/-- `img.shape[1]`: number of columns (of the first row; numpy images are
rectangular). -/
def Image.width (img : Image) : ℕ := (img.rows.headD []).length

/-- `cv2.flip(img, 1)`: horizontal (mirror) flip — each row reversed. -/
def cvFlip (img : Image) : Image :=
  ⟨img.rows.map List.reverse⟩

/-- `cv2.cvtColor(img, cv2.COLOR_BGR2RGB)`: swap the B and R channels. -/
def cvtColorBGR2RGB (img : Image) : Image :=
  ⟨img.rows.map (List.map fun p => ⟨p.r, p.g, p.b⟩)⟩

/-- `img.copy()`: a fresh buffer with the same contents. -/
def numpyCopy (img : Image) : Image := img

/-- One normalized MediaPipe landmark (`landmark.x`, `.y`, `.z`). -/
structure Landmark where
  x : ℚ
  y : ℚ
  z : ℚ
deriving DecidableEq, Repr

/-- One detected hand: `hand_landmarks.landmark` is its list of landmarks. -/
structure Hand where
  landmark : List Landmark
deriving DecidableEq, Repr

/-- One entry of `multi_handedness[i].classification`. -/
structure Classification where
  label : String
deriving DecidableEq, Repr

/-- One entry of `results.multi_handedness`. -/
structure Handedness where
  classification : List Classification
deriving DecidableEq, Repr

/-- The structured result returned by `self.hands.process`.  MediaPipe uses
`None` for the two fields when no hands are detected, hence the `Option`s. -/
structure MPResult where
  multi_hand_landmarks : Option (List Hand)
  multi_handedness : Option (List Handedness)
deriving DecidableEq, Repr

/-- Python truthiness of an optional list: `None` and `[]` are falsy. -/
def truthyOL {α : Type} (o : Option (List α)) : Bool :=
  match o with
  | none => false
  | some l => !l.isEmpty

/-- Python `enumerate` starting at index `i`. -/
def pyEnum {α : Type} : ℕ → List α → List (ℕ × α)
  | _, [] => []
  | i, a :: as => (i, a) :: pyEnum (i + 1) as

/-- Python indexing `l[i]` for a possibly negative index: a negative `i`
counts from the end; out-of-range access raises IndexError (`none`). -/
def pyGet {α : Type} (l : List α) (i : ℤ) : Option α :=
  let j : ℤ := if i < 0 then (l.length : ℤ) + i else i
  if 0 ≤ j then l.get? j.toNat else none

/-- The adapter state of class `HandDetector`: the constructor configuration,
the external engine and drawing utility as opaque functions, the cached
detection result, and the FPS bookkeeping fields. -/
structure HandDetector where
  mode : Bool
  max_hands : ℕ
  detection_conf : ℚ
  tracking_conf : ℚ
  /-- the external engine: `self.hands.process` on an RGB image -/
  hands : Image → MPResult
  /-- `self.mp_draw.draw_landmarks(img, hand, HAND_CONNECTIONS)` -/
  mp_draw : Image → Hand → Image
  results : Option MPResult
  prev_time : ℚ
  current_time : ℚ
  fps : ℤ

/-- `HandDetector.__init__`: stores the configuration and initialises
`results = None`, `prev_time = 0`, `current_time = 0`, `fps = 0`. -/
def HandDetector.init (mode : Bool) (max_hands : ℕ)
    (detection_conf tracking_conf : ℚ)
    (engine : Image → MPResult) (drawFn : Image → Hand → Image) :
    HandDetector :=
  { mode := mode
    max_hands := max_hands
    detection_conf := detection_conf
    tracking_conf := tracking_conf
    hands := engine
    mp_draw := drawFn
    results := none
    prev_time := 0
    current_time := 0
    fps := 0 }

/-- `find_hands(img, draw, flip_type)`.  Returns the new adapter state, the
caller's buffer after the call (the method works on a copy, so it is the
argument itself), and the image the method returns. -/
def findHands (st : HandDetector) (img : Image)
    (draw : Bool := true) (flip_type : Bool := true) :
    HandDetector × Image × Image :=
  let img_output := numpyCopy img
  let img_output := if flip_type then cvFlip img_output else img_output
  let img_rgb := cvtColorBGR2RGB img_output
  let results := st.hands img_rgb
  let st' := { st with results := some results }
  let img_output :=
    if truthyOL results.multi_hand_landmarks && draw then
      (results.multi_hand_landmarks.getD []).foldl
        (fun acc hand_landmarks => st'.mp_draw acc hand_landmarks) img_output
    else img_output
  (st', img, img_output)

/-- Resolution of `hand_type` for hand `hand_idx` in `find_positions`:
starts as `"Right"`, overwritten from `multi_handedness[hand_idx]
.classification[0].label` when `multi_handedness` is truthy; a failed
index access is an IndexError (`none`). -/
def handTypeOf (r : MPResult) (hand_idx : ℕ) : Option String :=
  match r.multi_handedness with
  | none => some "Right"
  | some mh =>
    if mh.isEmpty then some "Right"
    else do
      let hd ← mh.get? hand_idx
      let c ← hd.classification.get? 0
      pure c.label

/-- The `[lm_idx, px, py, landmark.z, hand_type]` record appended by
`find_positions` for one landmark. -/
def posRec (w h : ℕ) (hand_type : String) (p : ℕ × Landmark) : List PyVal :=
  [PyVal.int p.1, PyVal.int (pyInt (p.2.x * w)), PyVal.int (pyInt (p.2.y * h)),
   PyVal.rat p.2.z, PyVal.str hand_type]

/-- The `for hand_idx, hand_landmarks in enumerate(...)` loop body of
`find_positions`, collecting one record list per hand; an exception while
resolving handedness aborts the whole call. -/
def collectHands (r : MPResult) (w h : ℕ) :
    ℕ → List Hand → Option (List (List (List PyVal)))
  | _, [] => some []
  | hand_idx, hd :: tl => do
    let hand_type ← handTypeOf r hand_idx
    let rest ← collectHands r w h (hand_idx + 1) tl
    pure ((pyEnum 0 hd.landmark).map (posRec w h hand_type) :: rest)

/-- `find_positions(img)`: all hands' landmark records.  Returns the adapter
state, the input image and the Python return value (`none` = exception). -/
def findPositions (st : HandDetector) (img : Image) :
    HandDetector × Image × Option (List (List (List PyVal))) :=
  let h := img.height
  let w := img.width
  match st.results with
  | none => (st, img, some [])
  | some r =>
    match r.multi_hand_landmarks with
    | none => (st, img, some [])
    | some hands =>
      if hands.isEmpty then (st, img, some [])
      else (st, img, collectHands r w h 0 hands)

/-- Loop body of `find_position`: append `[idx, px, py]` and, when `draw`,
draw a filled circle on the (threaded) image via the `cv2.circle` binding. -/
def legacyStep (draw : Bool) (draw_radius : ℕ)
    (cv2circle : Image → ℤ → ℤ → ℕ → Image)
    (acc : Image × List (List PyVal)) (p : ℕ × Landmark) :
    Image × List (List PyVal) :=
  let img := acc.1
  let h := img.height
  let w := img.width
  let px := pyInt (p.2.x * w)
  let py := pyInt (p.2.y * h)
  let lst := acc.2 ++ [[PyVal.int p.1, PyVal.int px, PyVal.int py]]
  let img' := if draw then cv2circle img px py draw_radius else img
  (img', lst)

/-- `find_position(img, hand_no, draw, draw_radius)` (legacy single-hand
extractor). `cv2circle` is the `cv2.circle` binding.  Returns the adapter
state, the image buffer after any drawing, and the Python return value
(`none` = exception, from a negative out-of-range index). -/
def findPosition (st : HandDetector) (img : Image) (hand_no : ℤ := 0)
    (draw : Bool := true) (draw_radius : ℕ := 5)
    (cv2circle : Image → ℤ → ℤ → ℕ → Image := fun i _ _ _ => i) :
    HandDetector × Image × Option (List (List PyVal)) :=
  match st.results with
  | none => (st, img, some [])
  | some r =>
    match r.multi_hand_landmarks with
    | none => (st, img, some [])
    | some hands =>
      if hands.isEmpty then (st, img, some [])
      else if hand_no < (hands.length : ℤ) then
        match pyGet hands hand_no with
        | none => (st, img, none)
        | some hand =>
          let out := (pyEnum 0 hand.landmark).foldl
            (legacyStep draw draw_radius cv2circle) (img, [])
          (st, out.1, some out.2)
      else (st, img, some [])

/-- `update_fps()` with the value of `time.time()` passed in as `now`.
Returns the new state and the returned FPS value; `none` models the
ZeroDivisionError raised when the clock has not advanced. -/
def updateFps (st : HandDetector) (now : ℚ) : HandDetector × Option ℤ :=
  let st1 := { st with current_time := now }
  if 0 < st1.prev_time then
    if now - st1.prev_time = 0 then (st1, none)
    else
      let fps : ℚ := 1 / (now - st1.prev_time)
      let st2 := { st1 with prev_time := st1.current_time, fps := pyInt fps }
      (st2, some st2.fps)
  else
    let st2 := { st1 with prev_time := st1.current_time, fps := pyInt 0 }
    (st2, some st2.fps)

/-! ### Derived notions and helper lemmas -/

/-- Number of hands in the cached detection result (`0` when absent). -/
def numDetectedHands (st : HandDetector) : ℕ :=
  match st.results with
  | none => 0
  | some r => (r.multi_hand_landmarks.getD []).length

/-- Shape-and-range check for one `find_positions` record
`[id, px, py, z, label]`: the pixel coordinates lie in `[0,w) × [0,h)`. -/
def recInRange (w h : ℕ) : List PyVal → Bool
  | [PyVal.int _, PyVal.int px, PyVal.int py, PyVal.rat _, PyVal.str _] =>
    decide (0 ≤ px) && decide (px < (w : ℤ)) &&
    decide (0 ≤ py) && decide (py < (h : ℤ))
  | _ => false

/-- Whether a record mentions the handedness label `"Right"`. -/
def mentionsRight (rec : List PyVal) : Bool :=
  rec.any (fun v => v == PyVal.str "Right")

theorem pyInt_eq_floor (q : ℚ) (h : 0 ≤ q) : pyInt q = ⌊q⌋ := by
  rw [Rat.floor_def, pyInt, if_pos (Rat.num_nonneg.2 h)]

theorem pyInt_nonneg_lt (x : ℚ) (w : ℕ) (hx0 : 0 ≤ x) (hx1 : x < 1)
    (hw : 0 < w) : 0 ≤ pyInt (x * w) ∧ pyInt (x * w) < (w : ℤ) := by
  have hq0 : (0 : ℚ) ≤ x * w := mul_nonneg hx0 (by positivity)
  rw [pyInt_eq_floor _ hq0]
  constructor
  · exact Int.floor_nonneg.2 hq0
  · apply Int.floor_lt.2
    have hwq : (0 : ℚ) < (w : ℚ) := by exact_mod_cast hw
    calc x * (w : ℚ) < 1 * w := by
          exact mul_lt_mul_of_pos_right hx1 hwq
      _ = ((w : ℤ) : ℚ) := by push_cast; ring

theorem pyEnum_length {α : Type} (l : List α) :
    ∀ i, (pyEnum i l).length = l.length := by
  induction l with
  | nil => intro i; rfl
  | cons a as ih => intro i; simp [pyEnum, ih]

theorem pyEnum_mem {α : Type} (l : List α) :
    ∀ i p, p ∈ pyEnum i l → p.2 ∈ l := by
  induction l with
  | nil => intro i p hp; simp [pyEnum] at hp
  | cons a as ih =>
    intro i p hp
    rcases (by simpa [pyEnum] using hp : p = (i, a) ∨ p ∈ pyEnum (i + 1) as) with
      h | h
    · subst h; simp
    · exact List.mem_cons_of_mem _ (ih _ _ h)

theorem collectHands_eq (r : MPResult) (w h : ℕ) (f : ℕ → String) :
    ∀ (hands : List Hand) (i : ℕ),
      (∀ k, k < hands.length → handTypeOf r (i + k) = some (f (i + k))) →
      collectHands r w h i hands =
        some ((pyEnum i hands).map
          (fun p => (pyEnum 0 p.2.landmark).map (posRec w h (f p.1)))) := by
  intro hands
  induction hands with
  | nil => intro i _; rfl
  | cons hd tl ih =>
    intro i hf
    have h0 : handTypeOf r i = some (f i) := by
      have := hf 0 (by simp)
      simpa using this
    have htl : ∀ k, k < tl.length → handTypeOf r (i + 1 + k) = some (f (i + 1 + k)) := by
      intro k hk
      have := hf (k + 1) (by simpa using Nat.succ_lt_succ hk)
      rw [show i + (k + 1) = i + 1 + k by omega] at this
      exact this
    simp [collectHands, h0, ih (i + 1) htl, pyEnum]

theorem legacy_foldl_nodraw (radius : ℕ) (dc : Image → ℤ → ℤ → ℕ → Image) :
    ∀ (l : List (ℕ × Landmark)) (img : Image) (acc : List (List PyVal)),
      l.foldl (legacyStep false radius dc) (img, acc) =
        (img, acc ++ l.map (fun p =>
          [PyVal.int p.1, PyVal.int (pyInt (p.2.x * img.width)),
           PyVal.int (pyInt (p.2.y * img.height))])) := by
  intro l
  induction l with
  | nil => intro img acc; simp
  | cons p tl ih =>
    intro img acc
    rw [List.foldl_cons, show legacyStep false radius dc (img, acc) p =
      (img, acc ++ [[PyVal.int p.1, PyVal.int (pyInt (p.2.x * img.width)),
        PyVal.int (pyInt (p.2.y * img.height))]]) from rfl, ih]
    simp


/-! ### Concrete fixtures for witnesses and counterexamples -/

/-- An engine that never detects a hand. -/
def eng0 : Image → MPResult := fun _ => ⟨none, none⟩

/-- A skeleton-drawing stub (identity on the buffer). -/
def dl0 : Image → Hand → Image := fun i _ => i

/-- A `cv2.circle` stub (identity on the buffer). -/
def dc0 : Image → ℤ → ℤ → ℕ → Image := fun i _ _ _ => i

/-- A freshly constructed detector. -/
def hd0 : HandDetector := HandDetector.init false 2 0 0 eng0 dl0

/-- A landmark in the middle of the frame. -/
def lmHalf : Landmark := ⟨1/2, 1/2, 0⟩

/-- A landmark at the extreme normalized coordinate `1.0`. -/
def lmOne : Landmark := ⟨1, 1, 0⟩

/-- A hand with the full 21 landmarks, all at the frame centre. -/
def hand21 : Hand := ⟨List.replicate 21 lmHalf⟩

/-- A hand with the full 21 landmarks, all at normalized coordinate `1.0`. -/
def handOnes : Hand := ⟨List.replicate 21 lmOne⟩

/-- A stored result with one centred hand and no handedness data. -/
def res1 : MPResult := ⟨some [hand21], none⟩

/-- A detector that has stored `res1`. -/
def st1 : HandDetector := { hd0 with results := some res1 }

/-- A stored result with one hand at the coordinate boundary. -/
def resOnes : MPResult := ⟨some [handOnes], none⟩

/-- A detector that has stored `resOnes`. -/
def stOnes : HandDetector := { hd0 with results := some resOnes }

/-- A 2×2 black image. -/
def img22 : Image := ⟨[[⟨0, 0, 0⟩, ⟨0, 0, 0⟩], [⟨0, 0, 0⟩, ⟨0, 0, 0⟩]]⟩

/-! ### Claim theorems -/

/-- C9: `find_hands` never mutates the caller's input image: it works on a
copy, so the buffer passed in is unchanged after the call for every image
and flag combination (mutation is modelled by threading the caller's buffer
through the call). -/
theorem find_hands_preserves_input (st : HandDetector) (img : Image)
    (draw flip_type : Bool) :
    (findHands st img draw flip_type).2.1 = img := rfl

/-- C8: `find_positions` is a pure read: it leaves the whole adapter state
(stored result, FPS state, configuration) and the input image unchanged. -/
theorem find_positions_pure (st : HandDetector) (img : Image) :
    (findPositions st img).1 = st ∧ (findPositions st img).2.1 = img := by
  cases hres : st.results with
  | none => simp [findPositions, hres]
  | some r =>
    cases hml : r.multi_hand_landmarks with
    | none => simp [findPositions, hres, hml]
    | some hands =>
      by_cases he : hands.isEmpty = true <;>
        simp [findPositions, hres, hml, he]

/-- C5: the first call to `update_fps` (state fresh from the constructor,
no previous timestamp recorded) returns `0`, whatever the clock reads. -/
theorem update_fps_first_call (mode : Bool) (mh : ℕ) (dc tc : ℚ)
    (engine : Image → MPResult) (drawFn : Image → Hand → Image) (t : ℚ) :
    (updateFps (HandDetector.init mode mh dc tc engine drawFn) t).2 = some 0 := by
  simp [updateFps, HandDetector.init, pyInt]

/-- C6: whenever the stored detection result is absent or contains no hands
(`None` or an empty hand list), `find_positions` returns the empty
sequence. -/
theorem find_positions_no_hands (st : HandDetector) (img : Image)
    (h : st.results = none ∨
      ∃ r, st.results = some r ∧ truthyOL r.multi_hand_landmarks = false) :
    (findPositions st img).2.2 = some [] := by
  rcases h with h | ⟨r, hr, hml⟩
  · simp [findPositions, h]
  · cases hmlc : r.multi_hand_landmarks with
    | none => simp [findPositions, hr, hmlc]
    | some hands =>
      rw [hmlc] at hml
      have he : hands.isEmpty = true := by
        simpa [truthyOL] using hml
      simp [findPositions, hr, hmlc, he]

theorem find_positions_no_hands_w :
    (hd0.results = none ∨
      ∃ r, hd0.results = some r ∧ truthyOL r.multi_hand_landmarks = false) ∧
    (findPositions hd0 img22).2.2 = some [] :=
  ⟨Or.inl rfl, find_positions_no_hands hd0 img22 (Or.inl rfl)⟩

/-- C7: with flipping enabled each time (and drawing off, so only the flip
touches the pixels), two successive `find_hands` calls return an image with
the original content; the horizontal flip is an involution on images. -/
theorem find_hands_flip_involution (st : HandDetector) (img : Image) :
    (findHands (findHands st img false true).1 (findHands st img false true).2.2
      false true).2.2 = img ∧ ∀ im : Image, cvFlip (cvFlip im) = im := by
  have hinv : ∀ im : Image, cvFlip (cvFlip im) = im := by
    intro im
    cases im with
    | mk rows => simp [cvFlip, List.map_map, Function.comp_def]
  refine ⟨?_, hinv⟩
  simp only [findHands, numpyCopy, Bool.and_false, if_true, Bool.false_eq_true,
    if_false]
  exact hinv img

/-- C2: requesting a hand index at or beyond the number of detected hands
makes `find_position` return the empty list (and raise no exception:
the result is `some`). -/
theorem find_position_out_of_range (st : HandDetector) (img : Image)
    (hand_no : ℤ) (draw : Bool) (radius : ℕ)
    (dc : Image → ℤ → ℤ → ℕ → Image)
    (hn : (numDetectedHands st : ℤ) ≤ hand_no) :
    (findPosition st img hand_no draw radius dc).2.2 = some [] := by
  cases hres : st.results with
  | none => simp [findPosition, hres]
  | some r =>
    cases hml : r.multi_hand_landmarks with
    | none => simp [findPosition, hres, hml]
    | some hands =>
      have hn' : (hands.length : ℤ) ≤ hand_no := by
        simp only [numDetectedHands, hres, hml, Option.getD_some] at hn
        exact hn
      by_cases he : hands.isEmpty = true
      · simp [findPosition, hres, hml, he]
      · simp [findPosition, hres, hml, he,
          show ¬ hand_no < (hands.length : ℤ) by omega]

theorem find_position_out_of_range_w :
    ((numDetectedHands st1 : ℤ) ≤ 5) ∧
    (findPosition st1 img22 5 false 5 dc0).2.2 = some [] :=
  ⟨by simp [numDetectedHands, st1, hd0, res1],
   find_position_out_of_range st1 img22 5 false 5 dc0
     (by simp [numDetectedHands, st1, hd0, res1])⟩


theorem pyEnum_ne_nil {α : Type} (l : List α) (i : ℕ) (h : l ≠ []) :
    pyEnum i l ≠ [] := by
  cases l with
  | nil => exact absurd rfl h
  | cons a as => simp [pyEnum]

/-- C10: with at least one detected hand stored, `find_position` called with
the negative index `-1` passes the `hand_no < len` bounds check and returns
the (non-empty) landmark list of the last detected hand, via Python's
from-the-end indexing. -/
theorem find_position_negative_index (st : HandDetector) (img : Image)
    (r : MPResult) (hands : List Hand) (lastHand : Hand)
    (radius : ℕ) (dc : Image → ℤ → ℤ → ℕ → Image)
    (hres : st.results = some r)
    (hml : r.multi_hand_landmarks = some hands)
    (hlast : hands.getLast? = some lastHand) :
    (findPosition st img (-1) false radius dc).2.2 =
      some ((pyEnum 0 lastHand.landmark).map (fun p =>
        [PyVal.int p.1, PyVal.int (pyInt (p.2.x * img.width)),
         PyVal.int (pyInt (p.2.y * img.height))])) ∧
    (lastHand.landmark ≠ [] →
      (findPosition st img (-1) false radius dc).2.2 ≠ some []) := by
  have hne : hands ≠ [] := by
    intro he
    subst he
    simp at hlast
  have hlp : 0 < hands.length := List.length_pos.2 hne
  have hget : pyGet hands (-1) = some lastHand := by
    have hj : (0 : ℤ) ≤ (hands.length : ℤ) + (-1) := by omega
    have htn : ((hands.length : ℤ) + (-1)).toNat = hands.length - 1 := by omega
    simp only [pyGet, show ((-1 : ℤ) < 0) = True by norm_num, if_true, hj,
      if_pos, htn]
    rw [List.get?_eq_getElem?]
    rwa [List.getLast?_eq_getElem?] at hlast
  have hcond : (-1 : ℤ) < (hands.length : ℤ) := by omega
  have hmain : (findPosition st img (-1) false radius dc).2.2 =
      some ((pyEnum 0 lastHand.landmark).map (fun p =>
        [PyVal.int p.1, PyVal.int (pyInt (p.2.x * img.width)),
         PyVal.int (pyInt (p.2.y * img.height))])) := by
    simp only [findPosition, hres, hml]
    rw [if_neg (by simp [List.isEmpty_iff, hne]), if_pos hcond]
    simp [hget, legacy_foldl_nodraw]
  refine ⟨hmain, fun hl => ?_⟩
  rw [hmain]
  intro hcontra
  have : (pyEnum 0 lastHand.landmark).map (fun p =>
        [PyVal.int p.1, PyVal.int (pyInt (p.2.x * img.width)),
         PyVal.int (pyInt (p.2.y * img.height))]) = [] := by
    simpa using hcontra
  rw [List.map_eq_nil_iff] at this
  exact pyEnum_ne_nil lastHand.landmark 0 hl this

theorem find_position_negative_index_w :
    st1.results = some res1 ∧
    res1.multi_hand_landmarks = some [hand21] ∧
    [hand21].getLast? = some hand21 ∧
    ((findPosition st1 img22 (-1) false 5 dc0).2.2 =
      some ((pyEnum 0 hand21.landmark).map (fun p =>
        [PyVal.int p.1, PyVal.int (pyInt (p.2.x * img22.width)),
         PyVal.int (pyInt (p.2.y * img22.height))])) ∧
    (hand21.landmark ≠ [] →
      (findPosition st1 img22 (-1) false 5 dc0).2.2 ≠ some [])) :=
  ⟨rfl, rfl, rfl,
   find_position_negative_index st1 img22 res1 [hand21] hand21 5 dc0 rfl rfl rfl⟩

theorem updateFps_second (st : HandDetector) (now : ℚ)
    (hp : 0 < st.prev_time) (hne : now - st.prev_time ≠ 0) :
    (updateFps st now).2 = some (pyInt (1 / (now - st.prev_time))) ∧
    (updateFps st now).1.fps = pyInt (1 / (now - st.prev_time)) := by
  simp [updateFps, hp, hne]

/-- C3 (amended): `update_fps` stores and returns `1/elapsed` truncated
toward zero (Python `int()`), not rounded to nearest; a second call `T`
seconds after the first returns `int(1/T)`, which is within `±1` of
`round(1/T)`. -/
theorem update_fps_truncated_rate (mode : Bool) (mh : ℕ) (dcq tcq : ℚ)
    (engine : Image → MPResult) (drawFn : Image → Hand → Image)
    (t0 T : ℚ) (ht0 : 0 < t0) (hT : 0 < T) :
    (updateFps (updateFps (HandDetector.init mode mh dcq tcq engine drawFn)
        t0).1 (t0 + T)).2 = some (pyInt (1 / T)) ∧
    (updateFps (updateFps (HandDetector.init mode mh dcq tcq engine drawFn)
        t0).1 (t0 + T)).1.fps = pyInt (1 / T) ∧
    |pyInt (1 / T) - round ((1 : ℚ) / T)| ≤ 1 := by
  have hprev : (updateFps (HandDetector.init mode mh dcq tcq engine drawFn)
      t0).1.prev_time = t0 := by
    simp [updateFps, HandDetector.init]
  have hp : 0 < (updateFps (HandDetector.init mode mh dcq tcq engine drawFn)
      t0).1.prev_time := by rw [hprev]; exact ht0
  have hne : (t0 + T) - (updateFps (HandDetector.init mode mh dcq tcq engine
      drawFn) t0).1.prev_time ≠ 0 := by
    rw [hprev]
    intro hc
    apply hT.ne'
    linarith
  obtain ⟨hret, hsto⟩ := updateFps_second _ (t0 + T) hp hne
  rw [hprev] at hret hsto
  have harg : t0 + T - t0 = T := by ring
  rw [harg] at hret hsto
  refine ⟨hret, hsto, ?_⟩
  have hq : (0 : ℚ) ≤ 1 / T := by positivity
  rw [pyInt_eq_floor _ hq, round_eq]
  have h1 : ⌊(1 : ℚ) / T⌋ ≤ ⌊(1 : ℚ) / T + 1 / 2⌋ :=
    Int.floor_le_floor (by linarith)
  have h2 : ⌊(1 : ℚ) / T + 1 / 2⌋ ≤ ⌊(1 : ℚ) / T⌋ + 1 := by
    have hle := Int.floor_le_floor
      (show (1 : ℚ) / T + 1 / 2 ≤ 1 / T + 1 by norm_num)
    rwa [Int.floor_add_one] at hle
  rw [abs_le]
  omega

theorem update_fps_truncated_rate_w :
    (0 : ℚ) < 1 ∧ (0 : ℚ) < 3 / 5 ∧
    ((updateFps (updateFps (HandDetector.init false 2 0 0 eng0 dl0)
        1).1 (1 + 3 / 5)).2 = some (pyInt (1 / (3 / 5))) ∧
    (updateFps (updateFps (HandDetector.init false 2 0 0 eng0 dl0)
        1).1 (1 + 3 / 5)).1.fps = pyInt (1 / (3 / 5)) ∧
    |pyInt (1 / (3 / 5)) - round ((1 : ℚ) / (3 / 5))| ≤ 1) :=
  ⟨by norm_num, by norm_num,
   update_fps_truncated_rate false 2 0 0 eng0 dl0 1 (3 / 5)
     (by norm_num) (by norm_num)⟩

/-- C3 is false as stated: after a second call `T = 3/5` seconds later the
code returns `int(5/3) = 1`, while the nearest integer to `1/T = 5/3` is
`2` — the stored and returned value is truncated, not rounded. -/
theorem update_fps_rounds_counterexample :
    (updateFps (updateFps hd0 1).1 (8 / 5)).2 = some 1 ∧
    (updateFps (updateFps hd0 1).1 (8 / 5)).1.fps = 1 ∧
    round ((1 : ℚ) / (8 / 5 - 1)) = 2 ∧ (1 : ℤ) ≠ 2 := by
  refine ⟨?_, ?_, ?_, by decide⟩
  · norm_num [updateFps, hd0, HandDetector.init, pyInt]
  · norm_num [updateFps, hd0, HandDetector.init, pyInt]
  · norm_num [round_eq]

/-- C1 (amended): for a stored result with N hands, each with 21 landmarks,
whose normalized coordinates all lie in `[0,1)`, with resolvable handedness
entries and a non-degenerate image, `find_positions` returns exactly N hand
records of exactly 21 tuples each, with pixel coordinates in
`[0,width) × [0,height)`. -/
theorem find_positions_shape_and_bounds (st : HandDetector) (img : Image)
    (r : MPResult) (hands : List Hand)
    (hres : st.results = some r)
    (hml : r.multi_hand_landmarks = some hands)
    (hlen : ∀ hd ∈ hands, hd.landmark.length = 21)
    (hcoord : ∀ hd ∈ hands, ∀ lm ∈ hd.landmark,
      0 ≤ lm.x ∧ lm.x < 1 ∧ 0 ≤ lm.y ∧ lm.y < 1)
    (hht : ∀ k, k < hands.length → (handTypeOf r k).isSome)
    (hw : 0 < img.width) (hh : 0 < img.height) :
    ∃ out, (findPositions st img).2.2 = some out ∧
      out.length = hands.length ∧
      (∀ hr ∈ out, hr.length = 21) ∧
      (∀ hr ∈ out, ∀ rec ∈ hr, recInRange img.width img.height rec = true) := by
  by_cases he : hands = []
  · subst he
    refine ⟨[], ?_, rfl, by simp, by simp⟩
    simp [findPositions, hres, hml]
  · have hf : ∀ k, k < hands.length →
        handTypeOf r (0 + k) = some ((handTypeOf r (0 + k)).getD "Right") := by
      intro k hk
      have hs := hht k (by simpa using hk)
      cases hcase : handTypeOf r k with
      | none => rw [hcase] at hs; simp at hs
      | some a => simp [hcase]
    have hcoll := collectHands_eq r img.width img.height
      (fun k => (handTypeOf r k).getD "Right") hands 0 hf
    refine ⟨(pyEnum 0 hands).map (fun p => (pyEnum 0 p.2.landmark).map
      (posRec img.width img.height ((handTypeOf r p.1).getD "Right"))),
      ?_, ?_, ?_, ?_⟩
    · simp only [findPositions, hres, hml]
      rw [if_neg (by simpa [List.isEmpty_iff] using he)]
      exact hcoll
    · rw [List.length_map, pyEnum_length]
    · intro hr hm
      obtain ⟨p, hp, rfl⟩ := List.mem_map.1 hm
      rw [List.length_map, pyEnum_length]
      exact hlen p.2 (pyEnum_mem hands 0 p hp)
    · intro hr hm rec hrec
      obtain ⟨p, hp, rfl⟩ := List.mem_map.1 hm
      obtain ⟨q, hq, rfl⟩ := List.mem_map.1 hrec
      have hlm : q.2 ∈ p.2.landmark := pyEnum_mem _ 0 q hq
      have hhd : p.2 ∈ hands := pyEnum_mem _ 0 p hp
      obtain ⟨hx0, hx1, hy0, hy1⟩ := hcoord p.2 hhd q.2 hlm
      obtain ⟨hpx0, hpx1⟩ := pyInt_nonneg_lt q.2.x img.width hx0 hx1 hw
      obtain ⟨hpy0, hpy1⟩ := pyInt_nonneg_lt q.2.y img.height hy0 hy1 hh
      simp [posRec, recInRange, hpx0, hpx1, hpy0, hpy1]

theorem find_positions_shape_and_bounds_w :
    st1.results = some res1 ∧
    res1.multi_hand_landmarks = some [hand21] ∧
    (∀ hd ∈ [hand21], hd.landmark.length = 21) ∧
    (∀ hd ∈ [hand21], ∀ lm ∈ hd.landmark,
      0 ≤ lm.x ∧ lm.x < 1 ∧ 0 ≤ lm.y ∧ lm.y < 1) ∧
    (∀ k, k < [hand21].length → (handTypeOf res1 k).isSome) ∧
    0 < img22.width ∧ 0 < img22.height ∧
    (∃ out, (findPositions st1 img22).2.2 = some out ∧
      out.length = [hand21].length ∧
      (∀ hr ∈ out, hr.length = 21) ∧
      (∀ hr ∈ out, ∀ rec ∈ hr,
        recInRange img22.width img22.height rec = true)) := by
  have hlen : ∀ hd ∈ [hand21], hd.landmark.length = 21 := by
    intro hd hhd
    simp only [List.mem_singleton] at hhd
    subst hhd
    simp [hand21]
  have hcoord : ∀ hd ∈ [hand21], ∀ lm ∈ hd.landmark,
      0 ≤ lm.x ∧ lm.x < 1 ∧ 0 ≤ lm.y ∧ lm.y < 1 := by
    intro hd hhd lm hlm
    simp only [List.mem_singleton] at hhd
    subst hhd
    have hlm' : lm = lmHalf := by simpa [hand21] using hlm
    subst hlm'
    norm_num [lmHalf]
  have hht : ∀ k, k < [hand21].length → (handTypeOf res1 k).isSome := by
    intro k _
    rfl
  exact ⟨rfl, rfl, hlen, hcoord, hht, by decide, by decide,
    find_positions_shape_and_bounds st1 img22 res1 [hand21] rfl rfl
      hlen hcoord hht (by decide) (by decide)⟩

/-- C1 is false as stated: a stored result with one hand of 21 landmarks,
all at the extreme normalized coordinate `1.0`, on a 2×2 image yields
pixel coordinate `int(1.0 * 2) = 2`, which is not within `[0, 2)`: the
hand and tuple counts are right but the range condition fails. -/
theorem find_positions_bounds_counterexample :
    (findPositions stOnes img22).2.2.isSome = true ∧
    ((findPositions stOnes img22).2.2.getD []).length = 1 ∧
    (((findPositions stOnes img22).2.2.getD []).headD []).length = 21 ∧
    ((findPositions stOnes img22).2.2.getD []).all
      (fun hr => hr.all (recInRange img22.width img22.height)) = false := by
  have hpy : pyInt ((2 : ℚ)) = 2 := by norm_num [pyInt]
  refine ⟨?_, ?_, ?_, ?_⟩ <;>
    simp [findPositions, stOnes, hd0, HandDetector.init, resOnes, handOnes,
      lmOne, collectHands, handTypeOf, posRec, pyEnum, img22, Image.width,
      Image.height, recInRange, List.replicate, hpy]

theorem handTypeOf_falsy (r : MPResult)
    (h : truthyOL r.multi_handedness = false) (k : ℕ) :
    handTypeOf r k = some "Right" := by
  cases hmh : r.multi_handedness with
  | none => simp [handTypeOf, hmh]
  | some mh =>
    rw [hmh] at h
    have he : mh.isEmpty = true := by simpa [truthyOL] using h
    simp [handTypeOf, hmh, he]

theorem legacy_foldl_ints (draw : Bool) (radius : ℕ)
    (dc : Image → ℤ → ℤ → ℕ → Image) :
    ∀ (l : List (ℕ × Landmark)) (img : Image) (acc : List (List PyVal)),
      ∀ rec ∈ (l.foldl (legacyStep draw radius dc) (img, acc)).2,
        rec ∈ acc ∨ ∃ i a b, rec = [PyVal.int i, PyVal.int a, PyVal.int b] := by
  intro l
  induction l with
  | nil => intro img acc rec hrec; exact Or.inl hrec
  | cons p tl ih =>
    intro img acc rec hrec
    rw [List.foldl_cons] at hrec
    have hstep :
        legacyStep draw radius dc (img, acc) p =
          ((legacyStep draw radius dc (img, acc) p).1,
            acc ++ [[PyVal.int p.1,
              PyVal.int (pyInt (p.2.x * img.width)),
              PyVal.int (pyInt (p.2.y * img.height))]]) := rfl
    rw [hstep] at hrec
    rcases ih _ _ rec hrec with hmem | hex
    · rcases List.mem_append.1 hmem with hacc | hnew
      · exact Or.inl hacc
      · refine Or.inr ⟨(p.1 : ℤ), pyInt (p.2.x * img.width),
          pyInt (p.2.y * img.height), ?_⟩
        simpa using hnew
    · exact Or.inr hex

/-- C4 (amended): the default handedness label `"Right"` for a hand whose
handedness data is unavailable is assigned by the multi-hand extractor
`find_positions` (every returned tuple then ends with `"Right"`), not by the
legacy single-hand `find_position`, whose `[id, x, y]` tuples never carry a
handedness label at all. -/
theorem find_positions_default_right (st : HandDetector) (img : Image)
    (r : MPResult) (hands : List Hand)
    (dc : Image → ℤ → ℤ → ℕ → Image) (hand_no : ℤ) (draw : Bool) (radius : ℕ)
    (hres : st.results = some r)
    (hml : r.multi_hand_landmarks = some hands)
    (hfalsy : truthyOL r.multi_handedness = false) :
    (∃ out, (findPositions st img).2.2 = some out ∧
      ∀ hr ∈ out, ∀ rec ∈ hr, rec.getLast? = some (PyVal.str "Right")) ∧
    (∀ recs, (findPosition st img hand_no draw radius dc).2.2 = some recs →
      ∀ rec ∈ recs, mentionsRight rec = false) := by
  constructor
  · by_cases he : hands = []
    · subst he
      exact ⟨[], by simp [findPositions, hres, hml], by simp⟩
    · have hf : ∀ k, k < hands.length →
          handTypeOf r (0 + k) = some ((fun _ => "Right") (0 + k)) :=
        fun k _ => handTypeOf_falsy r hfalsy (0 + k)
      have hcoll := collectHands_eq r img.width img.height
        (fun _ => "Right") hands 0 hf
      refine ⟨(pyEnum 0 hands).map (fun p =>
        (pyEnum 0 p.2.landmark).map (posRec img.width img.height "Right")),
        ?_, ?_⟩
      · simp only [findPositions, hres, hml]
        rw [if_neg (by simpa [List.isEmpty_iff] using he)]
        exact hcoll
      · intro hr hm rec hrec
        obtain ⟨p, _, rfl⟩ := List.mem_map.1 hm
        obtain ⟨q, _, rfl⟩ := List.mem_map.1 hrec
        simp [posRec]
  · intro recs hrecs rec hrec
    simp only [findPosition, hres, hml] at hrecs
    by_cases he : hands.isEmpty = true
    · simp [he] at hrecs
      subst hrecs
      simp at hrec
    · by_cases hlt : hand_no < (hands.length : ℤ)
      · simp [he, hlt] at hrecs
        cases hg : pyGet hands hand_no with
        | none => rw [hg] at hrecs; simp at hrecs
        | some hand =>
          rw [hg] at hrecs
          simp at hrecs
          rcases legacy_foldl_ints draw radius dc (pyEnum 0 hand.landmark)
              img [] rec (by rw [hrecs]; exact hrec) with habs | ⟨i, a, b, rfl⟩
          · simp at habs
          · simp [mentionsRight]
      · simp [he, hlt] at hrecs
        subst hrecs
        simp at hrec

theorem find_positions_default_right_w :
    st1.results = some res1 ∧
    res1.multi_hand_landmarks = some [hand21] ∧
    truthyOL res1.multi_handedness = false ∧
    ((∃ out, (findPositions st1 img22).2.2 = some out ∧
      ∀ hr ∈ out, ∀ rec ∈ hr, rec.getLast? = some (PyVal.str "Right")) ∧
    (∀ recs, (findPosition st1 img22 0 false 5 dc0).2.2 = some recs →
      ∀ rec ∈ recs, mentionsRight rec = false)) :=
  ⟨rfl, rfl, rfl,
   find_positions_default_right st1 img22 res1 [hand21] dc0 0 false 5
     rfl rfl rfl⟩

/-- C4 is false as stated: with a detected hand whose handedness data is
unavailable, the legacy `find_position` returns 21 `[id, x, y]` tuples, and
none of them contains the label `"Right"` (or any handedness label). -/
theorem find_position_right_label_counterexample :
    res1.multi_handedness = none ∧
    (findPosition st1 img22 0 false 5 dc0).2.2.isSome = true ∧
    ((findPosition st1 img22 0 false 5 dc0).2.2.getD []).length = 21 ∧
    ((findPosition st1 img22 0 false 5 dc0).2.2.getD []).all
      (fun rec => !(mentionsRight rec)) = true := by
  have hpy : pyInt ((1 : ℚ) / 2 * 2) = 1 := by norm_num [pyInt]
  refine ⟨rfl, ?_, ?_, ?_⟩ <;>
    simp [findPosition, st1, hd0, HandDetector.init, res1, hand21, lmHalf,
      img22, Image.width, Image.height, pyGet, legacyStep, pyEnum,
      List.replicate, mentionsRight, hpy]
